import Mathlib

/-!
Verification development for the news-scraper vector-search subsystem.

Shallow embedding of:
  * `src/main.py` — ingestion merge (`merge_and_deduplicate_news`, `load_existing_news`,
    the news-item records built by `get_formatted_cnn_news` / `get_formatted_daily_star_news`);
  * `src/vector_database_creation.py` — the `NewsVectorDB` class: corpus loading,
    text preparation, embedding, FAISS flat-index build, persistence and search.

Python dictionaries holding article fields become records; the sentence-transformer
model is an abstract pure function `String → Vec`; FAISS `IndexFlatL2` is modelled
by its documented semantics: exact squared-L2 k-NN, results sorted by ascending
distance (ties by ascending row), and — when `k` exceeds the number of stored
rows — padding of the result arrays with label `-1` and distance `FLT_MAX`.
File-system effects become an explicit `World` record threaded through the
functions, and Python's mutable dictionaries (for the frame claim about
`search_similar`) become an explicit heap of dictionary objects.
-/

/-- Vectors are lists of integers: an exact, kernel-computable stand-in for
the float vectors (the claims under study are structural — counts, ordering,
alignment — not about rounding). -/
abbrev Vec := List Int

/-! ## `src/main.py`: news items and the ingestion merge -/

/-- A news record as built by `get_formatted_cnn_news` /
`get_formatted_daily_star_news` in `src/main.py`: all five keys present. -/
structure NewsItem where
  source_url : String
  headline : String
  full_news : String
  published_time : String
  source : String
deriving DecidableEq, Repr, Inhabited

/-- The `for news_item in new_news` loop of `merge_and_deduplicate_news`:
an item is appended iff its (raw) headline is not in `existing_headlines`.
The set of headlines is fixed before the loop and never updated inside it. -/
def mergeLoop (existing_headlines : List String) : List NewsItem → List NewsItem
  | [] => []
  | item :: rest =>
    if item.headline ∈ existing_headlines then
      mergeLoop existing_headlines rest
    else
      item :: mergeLoop existing_headlines rest

/-- Model of `merge_and_deduplicate_news(existing_news, new_news)` from `src/main.py`:
builds the set of existing (raw, unnormalized) headlines, then filters the
incoming batch against it. -/
def merge_and_deduplicate_news (existing_news new_news : List NewsItem) : List NewsItem :=
  let existing_headlines := existing_news.map (·.headline)
  mergeLoop existing_headlines new_news

/-- Split a character list into maximal whitespace-free words
(`acc` holds the current word, reversed). -/
def splitWsAux : List Char → List Char → List (List Char)
  | [], acc => if acc = [] then [] else [acc.reverse]
  | c :: rest, acc =>
    if c.isWhitespace then
      if acc = [] then splitWsAux rest []
      else acc.reverse :: splitWsAux rest []
    else splitWsAux rest (c :: acc)

/-- Join words with single spaces. -/
def joinWords : List (List Char) → List Char
  | [] => []
  | [w] => w
  | w :: ws => w ++ ' ' :: joinWords ws

/-- The dedup key as the SPEC describes it (not as the code computes it):
case-folded, whitespace-collapsed headline.  Used only to compare the spec's
claimed behaviour with the source's actual behaviour. -/
def specDedupKey (headline : String) : String :=
  ⟨joinWords ((splitWsAux headline.data []).map (List.map Char.toLower))⟩

/-! ## `src/vector_database_creation.py`: data model -/

/-- An article as read from the JSON document store.  Keys may be missing
(Python `dict.get` returns `None`), so every field is an `Option String`. -/
structure Article where
  headline : Option String
  source_url : Option String
  published_time : Option String
  source : Option String
  full_news : Option String
deriving DecidableEq, Repr, Inhabited

/-- Python truthiness of `article.get(key)`: `None` and `""` are falsy. -/
def truthy : Option String → Bool
  | none => false
  | some s => s ≠ ""

/-- Python string slicing `s[:n]`: the first `n` characters (code points). -/
def pyTake (s : String) (n : Nat) : String :=
  ⟨s.data.take n⟩

/-- Model of `NewsVectorDB.prepare_text_for_embedding` (lines 45-64): labelled headline,
first 1000 characters of the body, and source, each present only when the
corresponding key is truthy, joined by single spaces. -/
def prepare_text_for_embedding (article : Article) : String :=
  let text_parts : List String :=
    (if truthy article.headline then ["Headline: " ++ article.headline.getD ""] else [])
    ++ (if truthy article.full_news then
          ["Content: " ++ pyTake (article.full_news.getD "") 1000] else [])
    ++ (if truthy article.source then ["Source: " ++ article.source.getD ""] else [])
  String.intercalate " " text_parts

/-- One metadata entry as built inside `NewsVectorDB.create_embeddings`
(lines 84-91). -/
structure MetaEntry where
  id : Nat
  headline : String
  source_url : String
  published_time : String
  source : String
  full_news_preview : String
deriving DecidableEq, Repr, Inhabited

/-- The metadata dictionary built for the article at position `idx`
(`create_embeddings`, lines 84-91): `source` defaults to `"Unknown"` only when
the key is absent, and the preview is the first 200 characters of the body plus
`"..."` when the body is truthy, else `""`. -/
def metadataOf (idx : Nat) (article : Article) : MetaEntry :=
  { id := idx
    headline := article.headline.getD ""
    source_url := article.source_url.getD ""
    published_time := article.published_time.getD ""
    source := article.source.getD "Unknown"
    full_news_preview :=
      if truthy article.full_news then
        pyTake (article.full_news.getD "") 200 ++ "..."
      else "" }

/-- The `for idx, article in enumerate(news_data)` loop of `create_embeddings`:
metadata entries in corpus order, ids counting up from `idx`. -/
def metadataList (idx : Nat) : List Article → List MetaEntry
  | [] => []
  | a :: rest => metadataOf idx a :: metadataList (idx + 1) rest

/-- Model of `NewsVectorDB.create_embeddings` (lines 66-99): `None` on an empty corpus;
otherwise the texts are prepared in order, the metadata list is rebuilt, and the
Embedding Provider (`self.model.encode`, abstracted as the pure `embed`) turns
each text into one vector, order preserved.  Returns (embeddings, metadata). -/
def create_embeddings (embed : String → Vec) (news_data : List Article) :
    Option (List Vec × List MetaEntry) :=
  if news_data = [] then none
  else
    let texts := news_data.map prepare_text_for_embedding
    let metadata := metadataList 0 news_data
    let embeddings := texts.map embed
    some (embeddings, metadata)

/-- A FAISS `IndexFlatL2`: a dimension and the stored rows in insertion order
(`index.ntotal = rows.length`). -/
structure FaissIndex where
  d : Nat
  rows : List Vec
deriving DecidableEq, Repr, Inhabited

/-- Model of `NewsVectorDB.build_faiss_index` (lines 101-123): `None` when there are no
embeddings; otherwise an `IndexFlatL2` of dimension `embeddings.shape[1]`
holding every embedding in input order. -/
def build_faiss_index (embeddings : List Vec) : Option FaissIndex :=
  match embeddings with
  | [] => none
  | v :: rest => some ⟨v.length, v :: rest⟩

/-! ## FAISS flat search semantics -/

/-- Squared Euclidean (L2) distance, the metric of `IndexFlatL2`. -/
def sqDist (u v : Vec) : Int :=
  (List.zipWith (fun a b => (a - b) * (a - b)) u v).sum

/-- The value `FLT_MAX`, the distance FAISS reports for padding slots
(exactly `(2 - 2^-23) * 2^127 = 2^128 - 2^104`). -/
def fltMax : Int := 340282346638528859811704183484516925440

/-- Strict lexicographic order on (distance, row) pairs: ascending distance,
ties broken by ascending row index. -/
def distRowLe (p q : Int × Int) : Prop :=
  p.1 < q.1 ∨ (p.1 = q.1 ∧ p.2 ≤ q.2)

instance : DecidableRel distRowLe := fun p q => by
  unfold distRowLe; infer_instance

/-- Insert into a list sorted by `distRowLe`. -/
def insertByDist (p : Int × Int) : List (Int × Int) → List (Int × Int)
  | [] => [p]
  | q :: rest =>
    if distRowLe p q then p :: q :: rest else q :: insertByDist p rest

/-- Sort (distance, row) pairs by ascending distance, ties by ascending row. -/
def sortByDist : List (Int × Int) → List (Int × Int)
  | [] => []
  | p :: rest => insertByDist p (sortByDist rest)

/-- Documented behaviour of `faiss.IndexFlatL2.search` for one query: the
squared-L2 distance to every stored row, the `min(k, ntotal)` best pairs in
ascending order (ties by row), and—when `k > ntotal`—padding of the result
arrays up to length `k` with distance `FLT_MAX` and label `-1`. -/
def faissSearch (index : FaissIndex) (q : Vec) (k : Nat) : List (Int × Int) :=
  let scored := (List.range index.rows.length).map
    (fun i => (sqDist (index.rows.getD i []) q, (i : Int)))
  (sortByDist scored).take k ++ List.replicate (k - index.rows.length) (fltMax, -1)

/-! ## `search_similar` -/

/-- Python list indexing `l[i]`, including negative indices counting from the
end (`l[-1]` is the last element); `none` when out of range. -/
def pyGet {α : Type} (l : List α) (i : Int) : Option α :=
  if 0 ≤ i then l.get? i.toNat
  else if (-i).toNat ≤ l.length then l.get? (l.length - (-i).toNat)
  else none

/-- One search result: `metadata[idx].copy()` with `similarity_score` and
`rank` added (`search_similar`, lines 189-195). -/
structure ScoredResult where
  entry : MetaEntry
  similarity_score : Int
  rank : Nat
deriving DecidableEq, Repr, Inhabited

/-- The result loop of `search_similar` (lines 189-195): enumerate the
(distance, label) pairs; a pair contributes a result only when
`idx < len(metadata)` — note FAISS's padding label `-1` passes this guard
whenever the metadata list is non-empty, and `metadata[-1]` is its last
entry.  `rank` is the enumeration position plus one. -/
def searchResults (metadata : List MetaEntry) : Nat → List (Int × Int) → List ScoredResult
  | _, [] => []
  | i, (dist, idx) :: rest =>
    if idx < (metadata.length : Int) then
      match pyGet metadata idx with
      | some entry => ⟨entry, dist, i + 1⟩ :: searchResults metadata (i + 1) rest
      | none => searchResults metadata (i + 1) rest
    else
      searchResults metadata (i + 1) rest

/-- Model of `NewsVectorDB.search_similar` (lines 174-197), on an already-loaded index
and metadata: embeds the query unconditionally (`self.model.encode([query])`),
runs the FAISS search and builds the result list.  Returns the results paired
with the list of texts sent to the Embedding Provider during the call. -/
def search_similar_run (embed : String → Vec) (query : String) (k : Nat)
    (index : FaissIndex) (metadata : List MetaEntry) :
    List ScoredResult × List String :=
  let query_embedding := embed query
  let pairs := faissSearch index query_embedding k
  (searchResults metadata 0 pairs, [query])

/-- The results of `search_similar` alone. -/
def search_similar (embed : String → Vec) (query : String) (k : Nat)
    (index : FaissIndex) (metadata : List MetaEntry) : List ScoredResult :=
  (search_similar_run embed query k index metadata).1

/-! ## Persistence and orchestration -/

/-- The config descriptor written by `save_vector_db` (lines 141-147). -/
structure ConfigRec where
  created_at : String
  num_articles : Nat
  embedding_dim : Nat
  index_type : String
  model_name : String
deriving DecidableEq, Repr, Inhabited

/-- The files the program reads and writes.  `news_file` holds the raw JSON
text (`none` = file absent); the index artifact holds the serialized form a
FAISS flat index round-trips through `write_index`/`read_index`: the dimension
and the row-major flattened vector data. -/
structure World where
  news_file : Option String
  index_file : Option (Nat × List Int)
  metadata_file : Option (List MetaEntry)
  config_file : Option ConfigRec
deriving DecidableEq, Repr, Inhabited

/-- Serialization performed by `faiss.write_index`: dimension plus the rows
flattened in order (bit-exact for the vector data). -/
def writeIndexFile (index : FaissIndex) : Nat × List Int :=
  (index.d, index.rows.flatten)

/-- Worker for `chunkRows`: structural recursion on a fuel bound so the
kernel can evaluate it (`fuel ≥ flat.length` always holds at the call site). -/
def chunkRowsGo (d : Nat) : Nat → List Int → List Vec
  | 0, _ => []
  | _, [] => []
  | fuel + 1, x :: rest => ((x :: rest).take d) :: chunkRowsGo d fuel ((x :: rest).drop d)

/-- Split a flat buffer back into rows of length `d`
(`ntotal = len(data) / d`). -/
def chunkRows (d : Nat) (flat : List Int) : List Vec :=
  chunkRowsGo d flat.length flat

/-- Deserialization performed by `faiss.read_index`. -/
def readIndexFile : Nat × List Int → FaissIndex
  | (d, flat) => ⟨d, chunkRows d flat⟩

/-- Model of `NewsVectorDB.save_vector_db` (lines 125-152) with a non-`None` index:
writes the index file, the metadata pickle, and the config JSON. -/
def save_vector_db (now : String) (index : FaissIndex) (metadata : List MetaEntry)
    (w : World) : World :=
  { w with
    index_file := some (writeIndexFile index)
    metadata_file := some metadata
    config_file := some
      { created_at := now
        num_articles := metadata.length
        embedding_dim := index.d
        index_type := "IndexFlatL2"
        model_name := "all-MiniLM-L6-v2" } }

/-- Model of `NewsVectorDB.load_vector_db` (lines 154-172): `None` when either the
index file or the metadata file is missing; otherwise both artifacts are read
back as they are, with no consistency check between them. -/
def load_vector_db (w : World) : Option (FaissIndex × List MetaEntry) :=
  match w.index_file, w.metadata_file with
  | some idxData, some metadata => some (readIndexFile idxData, metadata)
  | _, _ => none

/-- Model of `NewsVectorDB.load_news_data` (lines 31-43): the JSON parser is abstracted
as `parse`; a missing file (`FileNotFoundError`) or unparsable contents
(`json.JSONDecodeError`) both yield the empty list — the function never
propagates an error. -/
def load_news_data (parse : String → Option (List Article)) (file : Option String) :
    List Article :=
  match file with
  | none => []
  | some contents =>
    match parse contents with
    | none => []
    | some news_data => news_data

/-- Model of `NewsVectorDB.build_from_scratch` (lines 199-218): load, embed, build,
save; each stage returning a falsy value aborts with `False`.  The result is
(success flag, world after the run, texts sent to the Embedding Provider). -/
def build_from_scratch (parse : String → Option (List Article))
    (embed : String → Vec) (now : String) (w : World) :
    Bool × World × List String :=
  let news_data := load_news_data parse w.news_file
  if news_data = [] then (false, w, [])
  else
    match create_embeddings embed news_data with
    | none => (false, w, [])
    | some (embeddings, metadata) =>
      match build_faiss_index embeddings with
      | none => (false, w, news_data.map prepare_text_for_embedding)
      | some index =>
        (true, save_vector_db now index metadata w, news_data.map prepare_text_for_embedding)

/-- One iteration of the interactive query loop in `main`
(lines 283-297): the raw input line is stripped; `"exit"` leaves the loop;
an empty stripped line prints "Please enter a query." and continues without
searching; anything else is passed to `search_similar`. -/
inductive LoopAction where
  | exitLoop
  | promptAgain
  | runSearch (query : String)
deriving DecidableEq, Repr

/-- Python `str.strip()`: drop whitespace from both ends. -/
def pyStrip (s : String) : String :=
  ⟨((s.data.dropWhile Char.isWhitespace).reverse.dropWhile Char.isWhitespace).reverse⟩

/-- Python `str.lower()`. -/
def pyLower (s : String) : String :=
  ⟨s.data.map Char.toLower⟩

/-- The dispatch of `main`'s query loop on one raw input line. -/
def main_loop_step (rawInput : String) : LoopAction :=
  let query := pyStrip rawInput
  if pyLower query = "exit" then .exitLoop
  else if query = "" then .promptAgain
  else .runSearch query

/-! ## Heap model for the mutation frame of `search_similar`

Python's metadata entries are mutable dictionary objects; `search_similar`
builds each result from `metadata[idx].copy()` and mutates only that copy.
To state that the stored entries are never mutated, dictionaries live in an
explicit heap and the metadata list holds addresses. -/

/-- A dictionary object: the stored metadata fields, plus the
`similarity_score` and `rank` keys a result dictionary gains. -/
structure DictObj where
  entry : MetaEntry
  similarity_score : Option Int
  rank : Option Nat
deriving DecidableEq, Repr, Inhabited

/-- The heap: the object at address `a` is `objs.get? a`; allocation appends. -/
abbrev Heap := List DictObj

/-- The result loop of `search_similar` on the heap: for each pair passing the
`idx < len(metadata)` guard, `metadata[idx].copy()` allocates a fresh object,
which then receives `similarity_score` and `rank`; its address is appended to
the result list.  Returns (final heap, result addresses). -/
def searchResultsHeap (metadata : List Nat) : Nat → List (Int × Int) → Heap → Heap × List Nat
  | _, [], h => (h, [])
  | i, (dist, idx) :: rest, h =>
    if idx < (metadata.length : Int) then
      match pyGet metadata idx with
      | some addr =>
        match h.get? addr with
        | some obj =>
          let copyAddr := h.length
          let h' := h ++ [{ obj with similarity_score := some dist, rank := some (i + 1) }]
          let (h'', res) := searchResultsHeap metadata (i + 1) rest h'
          (h'', copyAddr :: res)
        | none => searchResultsHeap metadata (i + 1) rest h
      | none => searchResultsHeap metadata (i + 1) rest h
    else
      searchResultsHeap metadata (i + 1) rest h

/-- Model of `search_similar` on the heap: embed the query, search, build the
result dictionaries. -/
def search_similar_heap (embed : String → Vec) (query : String) (k : Nat)
    (index : FaissIndex) (metadata : List Nat) (h : Heap) : Heap × List Nat :=
  searchResultsHeap metadata 0 (faissSearch index (embed query) k) h

/-- Run a sequence of queries, threading the heap; results are discarded (the
interactive loop only prints them). -/
def runQueries (embed : String → Vec) (k : Nat) (index : FaissIndex)
    (metadata : List Nat) : List String → Heap → Heap
  | [], h => h
  | q :: qs, h => runQueries embed k index metadata qs (search_similar_heap embed q k index metadata h).1

/-! ## Concrete inputs used by closed theorems -/

/-- A metadata entry used as concrete data. -/
def mEntryA : MetaEntry := ⟨0, "Stocks rally", "http://a", "t0", "CNN", "p0"⟩

/-- A second metadata entry used as concrete data. -/
def mEntryB : MetaEntry := ⟨1, "Floods recede", "http://b", "t1", "Daily Star", "p1"⟩

/-- A two-row index of dimension 2 (rows `[0,0]` and `[1,0]`). -/
def twoRowIndex : FaissIndex := ⟨2, [[0, 0], [1, 0]]⟩

/-- A news item used as concrete data. -/
def itemDup : NewsItem := ⟨"http://x", "Bitcoin hits record high", "body", "t", "CNN"⟩

/-- An existing item whose headline differs from `itemRecased`'s only in case
and whitespace. -/
def itemSpaced : NewsItem := ⟨"http://y", "Hello  World", "body1", "t1", "CNN"⟩

/-- An incoming item whose spec-level DedupKey equals `itemSpaced`'s. -/
def itemRecased : NewsItem := ⟨"http://z", "hello world", "body2", "t2", "Daily Star"⟩

/-- A persisted state whose metadata (2 entries) disagrees with its index
(1 row of dimension 1). -/
def misalignedWorld : World :=
  { news_file := none
    index_file := some (1, [7])
    metadata_file := some [mEntryA, mEntryB]
    config_file := none }

/-- A file system with no files. -/
def emptyWorld : World := ⟨none, none, none, none⟩

/-- A sample article with every key present. -/
def artSample : Article :=
  ⟨some "Quake shakes city", some "http://q", some "t", some "CNN", some "body text"⟩

/-- A 1001-character body. -/
def bigBody : String := ⟨List.replicate 1001 'a'⟩

/-- The first 1000 characters of `bigBody`. -/
def smallBody : String := ⟨List.replicate 1000 'a'⟩

/-- A one-row index of dimension 1. -/
def oneRowIndex : FaissIndex := ⟨1, [[5]]⟩

/-- A heap object wrapping `mEntryA`, no score or rank set. -/
def objA : DictObj := ⟨mEntryA, none, none⟩

/-- A heap object wrapping `mEntryB`, no score or rank set. -/
def objB : DictObj := ⟨mEntryB, none, none⟩

/-! # Theorems -/

/-- Lemma: `mergeLoop` is exactly `List.filter` on headline non-membership. -/
theorem mergeLoop_eq_filter (hs : List String) (l : List NewsItem) :
    mergeLoop hs l = l.filter (fun item => item.headline ∉ hs) := by
  induction l with
  | nil => rfl
  | cons item rest ih =>
    by_cases h : item.headline ∈ hs
    · simp [mergeLoop, h, ih, List.filter_cons]
    · simp [mergeLoop, h, ih, List.filter_cons]

/-- C1: `search_similar` with `k = 5` on a 2-row index does NOT return
`min(5, 2) = 2` results.  FAISS pads the result arrays with label `-1` and
distance `FLT_MAX`; the guard `idx < len(metadata)` (line 191) passes for
`-1`, and Python's `metadata[-1]` is the last entry, so the call returns 5
results — ranks 3..5 being spurious copies of the last metadata entry at
distance `FLT_MAX`.  This contradicts the guard's own stated purpose
(`# Ensure valid index`) and the spec's no-padding contract. -/
theorem search_k_exceeds_rowcount_returns_padded_results :
    search_similar (fun _ => [0, 0]) "market news" 5 twoRowIndex [mEntryA, mEntryB] =
      [⟨mEntryA, 0, 1⟩, ⟨mEntryB, 1, 2⟩,
       ⟨mEntryB, fltMax, 3⟩, ⟨mEntryB, fltMax, 4⟩, ⟨mEntryB, fltMax, 5⟩] ∧
    (search_similar (fun _ => [0, 0]) "market news" 5 twoRowIndex [mEntryA, mEntryB]).length
      = 5 := by
  constructor <;> decide

/-- C2 counterexample: `merge_and_deduplicate_news` does not behave as the
claim states.  (a) An incoming batch repeating the same headline keeps BOTH
occurrences — the headline set is built from `existing` only and never updated
during the loop.  (b) The key is the raw headline, not the case-folded,
whitespace-collapsed DedupKey: `itemRecased`'s DedupKey equals `itemSpaced`'s,
yet it is accepted when `itemSpaced` is already in the corpus. -/
theorem merge_keeps_intra_batch_duplicates :
    merge_and_deduplicate_news [] [itemDup, itemDup] = [itemDup, itemDup] ∧
    merge_and_deduplicate_news [] [itemDup, itemDup] ≠ [itemDup] ∧
    specDedupKey itemRecased.headline = specDedupKey itemSpaced.headline ∧
    merge_and_deduplicate_news [itemSpaced] [itemRecased] = [itemRecased] := by
  refine ⟨by decide, by decide, by decide, by decide⟩

/-- C2 amended: a document of `incoming` is accepted iff its RAW headline
(exact string equality — no case folding, no whitespace collapsing) is absent
from the headlines of `existing`; the set is NOT updated as acceptance
proceeds, so repeated headlines within the batch are all kept.  The output is
the order-preserving subsequence of `incoming` of items whose headline does
not occur in `existing`. -/
theorem merge_filters_on_raw_headline_against_existing_only
    (existing incoming : List NewsItem) :
    merge_and_deduplicate_news existing incoming
      = incoming.filter (fun item => item.headline ∉ existing.map (·.headline)) ∧
    (merge_and_deduplicate_news existing incoming).Sublist incoming ∧
    ∀ item ∈ merge_and_deduplicate_news existing incoming,
      item.headline ∉ existing.map (·.headline) := by
  have hf := mergeLoop_eq_filter (existing.map (·.headline)) incoming
  refine ⟨hf, ?_, ?_⟩
  · rw [merge_and_deduplicate_news, hf]
    exact List.filter_sublist incoming
  · intro item hmem
    rw [merge_and_deduplicate_news, hf] at hmem
    simpa using (List.mem_filter.mp hmem).2

/-- C2 amended, concrete instance: with `itemSpaced` existing, the incoming
batch `[itemDup, itemSpaced]` keeps exactly the item whose raw headline is
new, and that item's headline is indeed absent from the existing corpus. -/
theorem merge_filters_on_raw_headline_witness :
    itemDup ∈ merge_and_deduplicate_news [itemSpaced] [itemDup, itemSpaced] ∧
    itemDup.headline ∉ [itemSpaced].map (·.headline) :=
  ⟨by decide,
   (merge_filters_on_raw_headline_against_existing_only [itemSpaced] [itemDup, itemSpaced]).2.2
     itemDup (by decide)⟩

/-- Lemma: `metadataList` has one entry per article. -/
theorem metadataList_length (start : Nat) (l : List Article) :
    (metadataList start l).length = l.length := by
  induction l generalizing start with
  | nil => rfl
  | cons a rest ih => simp [metadataList, ih]

/-- The `i`-th metadata entry is the projection of the `i`-th article, with
`id = start + i`. -/
theorem metadataList_get? (start : Nat) (l : List Article) (i : Nat) :
    (metadataList start l).get? i = (l.get? i).map (fun a => metadataOf (start + i) a) := by
  induction l generalizing start i with
  | nil => simp [metadataList]
  | cons a rest ih =>
    cases i with
    | zero => simp [metadataList]
    | succ j =>
      simp only [metadataList, List.get?_cons_succ, ih (start + 1) j]
      have : start + 1 + j = start + (j + 1) := by omega
      rw [this]

/-- C3: for every embedding provider and non-empty corpus, `create_embeddings`
followed by `build_faiss_index` succeeds and yields an index and metadata of
equal length, where for every position `i` the metadata entry is exactly the
projection (`id = i`, headline, source_url, published_time, source, 200-char
body preview) of the article whose embedding is stored at row `i`. -/
theorem build_alignment (embed : String → Vec) (news_data : List Article)
    (h : news_data ≠ []) :
    ∃ embeddings metadata index,
      create_embeddings embed news_data = some (embeddings, metadata) ∧
      build_faiss_index embeddings = some index ∧
      metadata.length = index.rows.length ∧
      ∀ i a, news_data.get? i = some a →
        metadata.get? i = some (metadataOf i a) ∧
        index.rows.get? i = some (embed (prepare_text_for_embedding a)) := by
  match news_data with
  | [] => exact absurd rfl h
  | a0 :: rest =>
    refine ⟨(a0 :: rest).map (fun a => embed (prepare_text_for_embedding a)),
      metadataList 0 (a0 :: rest),
      ⟨(embed (prepare_text_for_embedding a0)).length,
        (a0 :: rest).map (fun a => embed (prepare_text_for_embedding a))⟩, ?_, ?_, ?_, ?_⟩
    · simp [create_embeddings, List.map_map]
    · simp [build_faiss_index]
    · simp [metadataList_length]
    · intro i a hget
      constructor
      · rw [metadataList_get?, hget]
        simp
      · simp only [List.get?_map, hget, Option.map_some']

/-- C3, concrete instance: a one-article corpus is non-empty and the build
aligns its single metadata entry with its single row. -/
theorem build_alignment_witness :
    ([artSample] : List Article) ≠ [] ∧
    ∃ embeddings metadata index,
      create_embeddings (fun _ => [3, 4]) [artSample] = some (embeddings, metadata) ∧
      build_faiss_index embeddings = some index ∧
      metadata.length = index.rows.length ∧
      ∀ i a, [artSample].get? i = some a →
        metadata.get? i = some (metadataOf i a) ∧
        index.rows.get? i = some ((fun _ => ([3, 4] : Vec)) (prepare_text_for_embedding a)) :=
  ⟨by decide, build_alignment (fun _ => [3, 4]) [artSample] (by decide)⟩

/-- C4 counterexample: `search_similar` performs no query validation.  Called
with the empty string it sends `""` straight to the Embedding Provider
(`self.model.encode([query])`, line 183) and returns results normally — there
is no rejection before embedding and no `InvalidQueryError` anywhere in the
code. -/
theorem search_similar_embeds_empty_query :
    (search_similar_run (fun _ => [0, 0]) "" 5 twoRowIndex [mEntryA, mEntryB]).2 = [""] ∧
    (search_similar_run (fun _ => [0, 0]) "" 5 twoRowIndex [mEntryA, mEntryB]).1 ≠ [] := by
  constructor <;> decide

/-- C4 amended: the rejection of empty/whitespace-only query text lives in the
interactive CLI loop of `main` (lines 283-297), not in the query operation.
The loop strips the raw input and, when the stripped text is empty, prints a
prompt and continues WITHOUT calling `search_similar` — so via the CLI such
text never reaches the Embedding Provider.  `search_similar` itself validates
nothing: every call sends exactly its query text to the provider, and no
`InvalidQueryError` exists. -/
theorem empty_query_skipped_by_cli_not_search :
    (∀ raw : String, pyStrip raw = "" → main_loop_step raw = .promptAgain) ∧
    (∀ (embed : String → Vec) (query : String) (k : Nat) (index : FaissIndex)
        (metadata : List MetaEntry),
      (search_similar_run embed query k index metadata).2 = [query]) := by
  constructor
  · intro raw h
    simp only [main_loop_step, h]
    decide
  · intro embed query k index metadata
    rfl

/-- C4 amended, concrete instance: a whitespace-only input line strips to the
empty string and is answered with the prompt, not a search; and a direct
`search_similar` call on a one-space query sends that space to the provider. -/
theorem empty_query_skipped_witness :
    pyStrip "   " = "" ∧
    main_loop_step "   " = .promptAgain ∧
    (search_similar_run (fun _ => [9]) " " 1 oneRowIndex [mEntryA]).2 = [" "] :=
  ⟨by decide,
   empty_query_skipped_by_cli_not_search.1 "   " (by decide),
   empty_query_skipped_by_cli_not_search.2 (fun _ => [9]) " " 1 oneRowIndex [mEntryA]⟩

/-- C5: when the loaded corpus is empty — whether the JSON file is missing,
unparsable, or holds an empty list — `build_from_scratch` fails immediately
(the `if not news_data: return False` guard, line 203): the failure is
terminal, no text is ever sent to the Embedding Provider, and the file system
is left exactly as it was — no index, metadata, or config artifact is
written. -/
theorem build_from_scratch_empty_corpus (parse : String → Option (List Article))
    (embed : String → Vec) (now : String) (w : World)
    (h : load_news_data parse w.news_file = []) :
    build_from_scratch parse embed now w = (false, w, []) := by
  simp [build_from_scratch, h]

/-- C5, concrete instance: a file parsing to the empty list aborts the build
with the world untouched and no provider calls. -/
theorem build_from_scratch_empty_corpus_witness :
    load_news_data (fun _ => some []) { emptyWorld with news_file := some "[]" }.news_file = [] ∧
    build_from_scratch (fun _ => some []) (fun _ => [1]) "2026-10-12"
      { emptyWorld with news_file := some "[]" }
      = (false, { emptyWorld with news_file := some "[]" }, []) :=
  ⟨rfl,
   build_from_scratch_empty_corpus (fun _ => some []) (fun _ => [1]) "2026-10-12"
     { emptyWorld with news_file := some "[]" } rfl⟩

/-- C9: `load_news_data` is total and never propagates an error: a missing
file (`FileNotFoundError`) yields `[]`, unparsable contents
(`json.JSONDecodeError`) yield `[]`, and valid contents yield the parsed
articles. -/
theorem load_news_data_never_fails (parse : String → Option (List Article)) :
    load_news_data parse none = [] ∧
    (∀ s, parse s = none → load_news_data parse (some s) = []) ∧
    (∀ s articles, parse s = some articles → load_news_data parse (some s) = articles) := by
  refine ⟨rfl, ?_, ?_⟩
  · intro s h
    simp [load_news_data, h]
  · intro s articles h
    simp [load_news_data, h]

/-- C9, concrete instance: with a parser that rejects everything, both the
missing-file case and the bad-JSON case return the empty list. -/
theorem load_news_data_never_fails_witness :
    load_news_data (fun _ => none) none = [] ∧
    (fun _ : String => (none : Option (List Article))) "not json" = none ∧
    load_news_data (fun _ => none) (some "not json") = [] :=
  ⟨(load_news_data_never_fails (fun _ => none)).1,
   rfl,
   (load_news_data_never_fails (fun _ => none)).2.1 "not json" rfl⟩

/-- C6 counterexample: `load_vector_db` performs NO alignment check.  A
persisted state whose metadata has 2 entries while the index has a single row
loads successfully — the claim's `CorruptStateError` on a length mismatch does
not exist in the code, which returns whatever the two files contain. -/
theorem load_accepts_misaligned_artifacts :
    load_vector_db misalignedWorld = some (⟨1, [[7]]⟩, [mEntryA, mEntryB]) ∧
    [mEntryA, mEntryB].length ≠ (FaissIndex.mk 1 [[7]]).rows.length := by
  constructor <;> decide

/-- C6 amended: `load_vector_db` fails (returns nothing) precisely when the
index artifact or the metadata artifact is missing; when both are present it
returns their contents as-is, with no re-check of the alignment invariant —
a metadata length differing from the index row count is not detected. -/
theorem load_checks_presence_not_alignment (w : World) :
    (load_vector_db w = none ↔ w.index_file = none ∨ w.metadata_file = none) ∧
    (∀ idxData metadata, w.index_file = some idxData → w.metadata_file = some metadata →
      load_vector_db w = some (readIndexFile idxData, metadata)) := by
  constructor
  · match hi : w.index_file, hm : w.metadata_file with
    | some idxData, some metadata => simp [load_vector_db, hi, hm]
    | some idxData, none => simp [load_vector_db, hi, hm]
    | none, some metadata => simp [load_vector_db, hi, hm]
    | none, none => simp [load_vector_db, hi, hm]
  · intro idxData metadata hi hm
    simp [load_vector_db, hi, hm]

/-- C6 amended, concrete instance: the misaligned state has both artifacts
present, and load returns them unchecked. -/
theorem load_checks_presence_witness :
    misalignedWorld.index_file = some (1, [7]) ∧
    misalignedWorld.metadata_file = some [mEntryA, mEntryB] ∧
    load_vector_db misalignedWorld = some (readIndexFile (1, [7]), [mEntryA, mEntryB]) :=
  ⟨rfl, rfl,
   (load_checks_presence_not_alignment misalignedWorld).2 (1, [7]) [mEntryA, mEntryB] rfl rfl⟩

/-- C7: `prepare_text_for_embedding` depends on the body text only through
its first 1000 characters: replacing `full_news` by any string with the same
first 1000 characters leaves the embedding input unchanged — no part of the
body beyond its first 1000 characters ever appears in the result, whose parts
(headline, bounded body, source) are assembled in that fixed order,
space-joined, by the definition itself. -/
theorem prepare_text_first_1000 (a : Article) (s t : String)
    (h : pyTake s 1000 = pyTake t 1000) :
    prepare_text_for_embedding { a with full_news := some s }
      = prepare_text_for_embedding { a with full_news := some t } := by
  have hdata : s.data.take 1000 = t.data.take 1000 := congrArg String.data h
  have hempty : s = "" ↔ t = "" := by
    constructor
    · intro hs
      cases t with
      | mk tdata =>
        have : tdata.take 1000 = [] := by
          rw [← hdata, hs]
          rfl
        rcases List.take_eq_nil_iff.mp this with h0 | hnil
        · omega
        · rw [hnil]
    · intro ht
      cases s with
      | mk sdata =>
        have : sdata.take 1000 = [] := by
          rw [hdata, ht]
          rfl
        rcases List.take_eq_nil_iff.mp this with h0 | hnil
        · omega
        · rw [hnil]
  by_cases hs : s = ""
  · have ht : t = "" := hempty.mp hs
    simp [prepare_text_for_embedding, truthy, hs, ht]
  · have ht : t ≠ "" := fun he => hs (hempty.mpr he)
    simp [prepare_text_for_embedding, truthy, hs, ht, h]

/-- C7, concrete instance: a 1001-character body and its 1000-character
truncation share their first 1000 characters and produce the same embedding
input. -/
theorem prepare_text_first_1000_witness :
    pyTake bigBody 1000 = pyTake smallBody 1000 ∧
    prepare_text_for_embedding { artSample with full_news := some bigBody }
      = prepare_text_for_embedding { artSample with full_news := some smallBody } := by
  have h : pyTake bigBody 1000 = pyTake smallBody 1000 := by
    show (⟨(List.replicate 1001 'a').take 1000⟩ : String) = ⟨(List.replicate 1000 'a').take 1000⟩
    rw [List.take_replicate, List.take_replicate]
    norm_num
  exact ⟨h, prepare_text_first_1000 artSample bigBody smallBody h⟩

/-- Rechunking the flattened rows recovers them, given a positive dimension,
rows all of that length, and enough fuel. -/
theorem chunkRowsGo_flatten (d : Nat) (hd : 0 < d) :
    ∀ (rows : List Vec) (fuel : Nat), (∀ r ∈ rows, r.length = d) →
      rows.flatten.length ≤ fuel → chunkRowsGo d fuel rows.flatten = rows := by
  intro rows
  induction rows with
  | nil =>
    intro fuel _ _
    cases fuel <;> rfl
  | cons r rest ih =>
    intro fuel hlen hfuel
    have hr : r.length = d := hlen r (List.mem_cons_self r rest)
    match r, hr with
    | [], hr =>
      simp at hr
      omega
    | c :: rtail, hr =>
      simp only [List.flatten_cons] at hfuel ⊢
      match fuel with
      | 0 =>
        simp [List.length_append] at hfuel
      | f + 1 =>
        have hcons : (c :: rtail) ++ rest.flatten = c :: (rtail ++ rest.flatten) := rfl
        rw [hcons]
        show ((c :: (rtail ++ rest.flatten)).take d) ::
            chunkRowsGo d f ((c :: (rtail ++ rest.flatten)).drop d) = _
        rw [← hcons, List.take_left' hr, List.drop_left' hr]
        have hfl : rest.flatten.length ≤ f := by
          simp only [List.length_append] at hfuel
          omega
        rw [ih f (fun v hv => hlen v (List.mem_cons_of_mem _ hv)) hfl]

/-- C8: `save_vector_db` followed by `load_vector_db` reproduces the index and
the metadata exactly — same rows (identical values, order, and count, via the
flatten/rechunk serialization) and the identical metadata sequence — for any
index whose rows all have its (positive) dimension, as FAISS guarantees. -/
theorem save_load_roundtrip (now : String) (index : FaissIndex)
    (metadata : List MetaEntry) (w : World)
    (hd : 0 < index.d) (hr : ∀ r ∈ index.rows, r.length = index.d) :
    load_vector_db (save_vector_db now index metadata w) = some (index, metadata) := by
  obtain ⟨d, rows⟩ := index
  simp only [load_vector_db, save_vector_db, writeIndexFile, readIndexFile, chunkRows]
  rw [chunkRowsGo_flatten d hd rows rows.flatten.length hr (Nat.le_refl _)]

/-- C8, concrete instance: a 2-row, dimension-1 index and a 1-entry metadata
list round-trip through save and load bit-for-bit. -/
theorem save_load_roundtrip_witness :
    0 < (FaissIndex.mk 1 [[2], [3]]).d ∧
    (∀ r ∈ (FaissIndex.mk 1 [[2], [3]]).rows, r.length = (FaissIndex.mk 1 [[2], [3]]).d) ∧
    load_vector_db (save_vector_db "2026-10-12" ⟨1, [[2], [3]]⟩ [mEntryA] emptyWorld)
      = some (⟨1, [[2], [3]]⟩, [mEntryA]) :=
  ⟨by decide, by decide,
   save_load_roundtrip "2026-10-12" ⟨1, [[2], [3]]⟩ [mEntryA] emptyWorld
     (by decide) (by decide)⟩

/-- The result loop only allocates: the heap never shrinks. -/
theorem searchResultsHeap_length_mono (metadata : List Nat) :
    ∀ (pairs : List (Int × Int)) (i : Nat) (h : Heap),
      h.length ≤ (searchResultsHeap metadata i pairs h).1.length := by
  intro pairs
  induction pairs with
  | nil => intro i h; exact Nat.le_refl _
  | cons p rest ih =>
    intro i h
    obtain ⟨dist, idx⟩ := p
    by_cases hguard : idx < (metadata.length : Int)
    · cases hpg : pyGet metadata idx with
      | none =>
        simp only [searchResultsHeap, if_pos hguard, hpg]
        exact ih (i + 1) h
      | some addr =>
        cases hga : h.get? addr with
        | none =>
          simp only [searchResultsHeap, if_pos hguard, hpg, hga]
          exact ih (i + 1) h
        | some obj =>
          simp only [searchResultsHeap, if_pos hguard, hpg, hga]
          have step := ih (i + 1)
            (h ++ [{ obj with similarity_score := some dist, rank := some (i + 1) }])
          simp only [List.length_append, List.length_cons, List.length_nil] at step
          omega
    · simp only [searchResultsHeap, if_neg hguard]
      exact ih (i + 1) h

/-- Objects already on the heap are untouched by the result loop: every write
goes to a freshly allocated copy. -/
theorem searchResultsHeap_preserves (metadata : List Nat) :
    ∀ (pairs : List (Int × Int)) (i : Nat) (h : Heap) (a : Nat), a < h.length →
      (searchResultsHeap metadata i pairs h).1.get? a = h.get? a := by
  intro pairs
  induction pairs with
  | nil => intro i h a ha; rfl
  | cons p rest ih =>
    intro i h a ha
    obtain ⟨dist, idx⟩ := p
    by_cases hguard : idx < (metadata.length : Int)
    · cases hpg : pyGet metadata idx with
      | none =>
        simp only [searchResultsHeap, if_pos hguard, hpg]
        exact ih (i + 1) h a ha
      | some addr =>
        cases hga : h.get? addr with
        | none =>
          simp only [searchResultsHeap, if_pos hguard, hpg, hga]
          exact ih (i + 1) h a ha
        | some obj =>
          simp only [searchResultsHeap, if_pos hguard, hpg, hga]
          have hlen : a < (h ++
              [{ obj with similarity_score := some dist, rank := some (i + 1) }]).length := by
            simp only [List.length_append, List.length_cons, List.length_nil]
            omega
          rw [ih (i + 1) _ a hlen]
          exact List.get?_append ha
    · simp only [searchResultsHeap, if_neg hguard]
      exact ih (i + 1) h a ha

/-- Every address the result loop returns is fresh (allocated during the
loop), never one of the pre-existing objects. -/
theorem searchResultsHeap_results_fresh (metadata : List Nat) :
    ∀ (pairs : List (Int × Int)) (i : Nat) (h : Heap) (r : Nat),
      r ∈ (searchResultsHeap metadata i pairs h).2 → h.length ≤ r := by
  intro pairs
  induction pairs with
  | nil => intro i h r hr; simp [searchResultsHeap] at hr
  | cons p rest ih =>
    intro i h r hr
    obtain ⟨dist, idx⟩ := p
    by_cases hguard : idx < (metadata.length : Int)
    · cases hpg : pyGet metadata idx with
      | none =>
        simp only [searchResultsHeap, if_pos hguard, hpg] at hr
        exact ih (i + 1) h r hr
      | some addr =>
        cases hga : h.get? addr with
        | none =>
          simp only [searchResultsHeap, if_pos hguard, hpg, hga] at hr
          exact ih (i + 1) h r hr
        | some obj =>
          simp only [searchResultsHeap, if_pos hguard, hpg, hga, List.mem_cons] at hr
          rcases hr with heq | hmem
          · omega
          · have := ih (i + 1)
              (h ++ [{ obj with similarity_score := some dist, rank := some (i + 1) }]) r hmem
            simp only [List.length_append, List.length_cons, List.length_nil] at this
            omega
    · simp only [searchResultsHeap, if_neg hguard] at hr
      exact ih (i + 1) h r hr

/-- C10: queries never mutate the stored metadata objects.  Every result a
search returns lives at a freshly allocated heap address — a copy of the
corresponding metadata dictionary with `similarity_score` and `rank` added —
and after any number of queries every pre-existing heap object (in particular
every stored metadata entry) is unchanged. -/
theorem queries_preserve_stored_metadata (embed : String → Vec) (k : Nat)
    (index : FaissIndex) (metadata : List Nat) (h : Heap) :
    (∀ (queries : List String) (a : Nat), a < h.length →
      (runQueries embed k index metadata queries h).get? a = h.get? a) ∧
    (∀ (query : String) (r : Nat),
      r ∈ (search_similar_heap embed query k index metadata h).2 → h.length ≤ r) := by
  constructor
  · intro queries
    induction queries generalizing h with
    | nil => intro a ha; rfl
    | cons q qs ih =>
      intro a ha
      simp only [runQueries]
      have hmono := searchResultsHeap_length_mono metadata
        (faissSearch index (embed q) k) 0 h
      rw [ih (search_similar_heap embed q k index metadata h).1 a (Nat.lt_of_lt_of_le ha hmono)]
      exact searchResultsHeap_preserves metadata (faissSearch index (embed q) k) 0 h a ha
  · intro query r hr
    exact searchResultsHeap_results_fresh metadata (faissSearch index (embed query) k) 0 h r hr

/-- C10, concrete instance: two queries against a 2-object heap leave object 0
unchanged, and the result of a query lives at a fresh address (2, past the
pre-existing objects 0 and 1). -/
theorem queries_preserve_stored_metadata_witness :
    (0 : Nat) < ([objA, objB] : Heap).length ∧
    (runQueries (fun _ => [5]) 1 oneRowIndex [0, 1] ["flood update", "markets"]
        [objA, objB]).get? 0 = ([objA, objB] : Heap).get? 0 ∧
    (2 : Nat) ∈ (search_similar_heap (fun _ => [5]) "flood update" 1 oneRowIndex [0, 1]
        [objA, objB]).2 ∧
    ([objA, objB] : Heap).length ≤ 2 :=
  ⟨by decide,
   (queries_preserve_stored_metadata (fun _ => [5]) 1 oneRowIndex [0, 1] [objA, objB]).1
     ["flood update", "markets"] 0 (by decide),
   by decide,
   (queries_preserve_stored_metadata (fun _ => [5]) 1 oneRowIndex [0, 1] [objA, objB]).2
     "flood update" 2 (by decide)⟩
